import Mathlib

/-!
# Router model (`src/dpi/router_model.cpp`)

A shallow embedding of the C++ reference model of the router.  The process-wide
`router_state` becomes an explicit value of type `RouterState` that every entry
point receives and returns.  `std::queue<uint8_t>` is a list whose head is the
front of the queue: `push` appends at the end, `front` is the head, `pop` drops
the head.  The `printf` trace lines are not modelled.
-/

namespace RouterModel

/-- An 8-bit unsigned machine integer (`uint8_t`). -/
abbrev uint8_t := Fin 256

/-- A 32-bit unsigned machine integer (`uint32_t`). -/
abbrev uint32_t := Fin 4294967296

/-- The `struct RouterState` of the source: two flags and four byte queues. -/
structure RouterState where
  global_enable : Bool
  priority_port_b : Bool
  port_fifos : Fin 4 → List uint8_t

instance : DecidableEq RouterState := fun a b =>
  decidable_of_iff
    (a.global_enable = b.global_enable ∧ a.priority_port_b = b.priority_port_b ∧
      a.port_fifos 0 = b.port_fifos 0 ∧ a.port_fifos 1 = b.port_fifos 1 ∧
      a.port_fifos 2 = b.port_fifos 2 ∧ a.port_fifos 3 = b.port_fifos 3)
    (by
      constructor
      · rintro ⟨h1, h2, h3, h4, h5, h6⟩
        cases a
        cases b
        simp only [RouterState.mk.injEq]
        refine ⟨h1, h2, ?_⟩
        funext i
        fin_cases i
        · exact h3
        · exact h4
        · exact h5
        · exact h6
      · rintro rfl
        exact ⟨rfl, rfl, rfl, rfl, rfl, rfl⟩)

/-- The inner loop of `router_model_init`:
`while (!q.empty()) q.pop();`, one iteration per queued byte. -/
def popUntilEmpty : List uint8_t → List uint8_t
  | [] => []
  | _ :: rest => popUntilEmpty rest

/-- The outer loop of `router_model_init`: `for (int i = 0; i < 4; i++)`, written as
a count-down of the iterations still to run (`n = 4 - i`). -/
def clearFifos (fifos : Fin 4 → List uint8_t) : Nat → (Fin 4 → List uint8_t)
  | 0 => fifos
  | n + 1 =>
    if h : 4 - (n + 1) < 4 then
      clearFifos (Function.update fifos ⟨4 - (n + 1), h⟩
        (popUntilEmpty (fifos ⟨4 - (n + 1), h⟩))) n
    else fifos

/-- The entry point `router_model_init`. -/
def router_model_init (s : RouterState) : RouterState :=
  { global_enable := true
    priority_port_b := false
    port_fifos := clearFifos s.port_fifos 4 }

/-- The entry point `router_model_write_ctrl`: the two assignments convert an
integer to `bool`, that is, they test it against zero. -/
def router_model_write_ctrl (s : RouterState) (data : uint32_t) : RouterState :=
  { s with
    global_enable := (data.val &&& 0x1) != 0
    priority_port_b := ((data.val &&& 0x2) >>> 1) != 0 }

/-- The entry point `router_model_port_a`. -/
def router_model_port_a (s : RouterState) (data addr : uint8_t) : RouterState :=
  if !s.global_enable then s
  else if h : addr.val < 4 then
    { s with port_fifos :=
        Function.update s.port_fifos ⟨addr.val, h⟩ (s.port_fifos ⟨addr.val, h⟩ ++ [data]) }
  else s

/-- The entry point `router_model_port_b`. -/
def router_model_port_b (s : RouterState) (data addr : uint8_t) : RouterState :=
  if !s.global_enable then s
  else if h : addr.val < 4 then
    { s with port_fifos :=
        Function.update s.port_fifos ⟨addr.val, h⟩ (s.port_fifos ⟨addr.val, h⟩ ++ [data]) }
  else s

/-- What a call of `router_model_get_output` leaves behind: the returned `int`,
the byte at `*data` after the call, and the router state. -/
structure OutputResult where
  ret : Int
  data : uint8_t
  state : RouterState

instance : DecidableEq OutputResult := fun a b =>
  decidable_of_iff (a.ret = b.ret ∧ a.data = b.data ∧ a.state = b.state)
    (by
      constructor
      · rintro ⟨h1, h2, h3⟩
        cases a
        cases b
        simp only [OutputResult.mk.injEq]
        exact ⟨h1, h2, h3⟩
      · rintro rfl
        exact ⟨rfl, rfl, rfl⟩)

/-- The entry point `router_model_get_output`; `data` is the byte at `*data` before
the call. -/
def router_model_get_output (s : RouterState) (port : uint8_t) (data : uint8_t) :
    OutputResult :=
  if h : port.val < 4 then
    match s.port_fifos ⟨port.val, h⟩ with
    | front :: rest =>
      { ret := 1
        data := front
        state := { s with port_fifos := Function.update s.port_fifos ⟨port.val, h⟩ rest } }
    | [] => { ret := 0, data := data, state := s }
  else { ret := 0, data := data, state := s }

/-- A state with both flags set the other way round from reset and bytes pending in
three of the four queues; used as a concrete starting point. -/
def busyState : RouterState :=
  { global_enable := false
    priority_port_b := true
    port_fifos := fun i => if i = 0 then [1, 2, 3] else if i = 2 then [0x7f] else
      if i = 3 then [9, 9] else [] }

/-- An enabled state with bytes pending in three of the four queues. -/
def readyState : RouterState :=
  { global_enable := true
    priority_port_b := false
    port_fifos := fun i => if i = 0 then [0x41] else if i = 1 then [5, 6] else
      if i = 2 then [0x10, 0x20, 0x30] else [] }

/-- The input port a submission comes through. -/
inductive InputPort where
  | a
  | b
deriving DecidableEq

/-- One submission of `data` to `addr` through the named input port. -/
def submit (s : RouterState) (via : InputPort) (data addr : uint8_t) : RouterState :=
  match via with
  | .a => router_model_port_a s data addr
  | .b => router_model_port_b s data addr

/-- A list of submissions, each a byte with the input port it comes through, all made to
the destination `addr`, first to last. -/
def submitAll (s : RouterState) (addr : uint8_t) : List (InputPort × uint8_t) → RouterState
  | [] => s
  | (via, data) :: rest => submitAll (submit s via data addr) addr rest

/-- The harness calling `router_model_get_output(port, &buf)` `n` times in a row on
the same buffer: the pairs of returned `int` and buffer contents after each call, and the
state after the last call. -/
def drainN (s : RouterState) (port buf : uint8_t) : Nat → List (Int × uint8_t) × RouterState
  | 0 => ([], s)
  | n + 1 =>
    let r := router_model_get_output s port buf
    let later := drainN r.state port r.data n
    ((r.ret, r.data) :: later.1, later.2)

/-- A call of one of the entry points other than `router_model_init`; for
`get_output` the second field is the byte at `*data` before the call. -/
inductive Call where
  | write_ctrl (data : uint32_t)
  | port_a (data addr : uint8_t)
  | port_b (data addr : uint8_t)
  | get_output (port buf : uint8_t)
deriving DecidableEq

/-- The state a call leaves behind. -/
def step (s : RouterState) : Call → RouterState
  | .write_ctrl data => router_model_write_ctrl s data
  | .port_a data addr => router_model_port_a s data addr
  | .port_b data addr => router_model_port_b s data addr
  | .get_output port buf => (router_model_get_output s port buf).state

/-- The state after a sequence of calls, first to last. -/
def run (s : RouterState) : List Call → RouterState
  | [] => s
  | c :: rest => run (step s c) rest

/-- The bytes a call hands back to the harness from port `i`: the byte written to
`*data` by a `get_output(i)` call that returns non-zero, nothing otherwise. -/
def drainedBy (i : Fin 4) (s : RouterState) : Call → List uint8_t
  | .get_output port buf =>
    if port.val = i.val ∧ (router_model_get_output s port buf).ret ≠ 0 then
      [(router_model_get_output s port buf).data]
    else []
  | _ => []

/-- The bytes returned by the successful `get_output(i)` calls of a run, in call order. -/
def drained (i : Fin 4) (s : RouterState) : List Call → List uint8_t
  | [] => []
  | c :: rest => drainedBy i s c ++ drained i (step s c) rest

/-- The byte a call submits to port `i` while the router is enabled: the data byte of
a `port_a` or `port_b` call with `addr = i` made when `global_enable` is true. -/
def acceptedBy (i : Fin 4) (s : RouterState) : Call → List uint8_t
  | .port_a data addr => if addr.val = i.val ∧ s.global_enable = true then [data] else []
  | .port_b data addr => if addr.val = i.val ∧ s.global_enable = true then [data] else []
  | _ => []

/-- The data bytes of the accepted submissions to port `i` of a run, in call order. -/
def accepted (i : Fin 4) (s : RouterState) : List Call → List uint8_t
  | [] => []
  | c :: rest => acceptedBy i s c ++ accepted i (step s c) rest

/-- The spec scenario up to the submissions: `init` then `write_ctrl(0x1)`, started
from a state that still holds old flags and bytes. -/
def scenarioState : RouterState :=
  router_model_write_ctrl (router_model_init busyState) 0x1

/-- A list of submissions, each an input port, a data byte and a destination, made
first to last. -/
def submitBatch (s : RouterState) : List (InputPort × uint8_t × uint8_t) → RouterState
  | [] => s
  | (via, data, addr) :: rest => submitBatch (submit s via data addr) rest

/-- What the harness reads during a run: for every `get_output` call, in call order,
the returned `int` and the byte at `*data` after the call. -/
def outputs (s : RouterState) : List Call → List (Int × uint8_t)
  | [] => []
  | .get_output port buf :: rest =>
    ((router_model_get_output s port buf).ret, (router_model_get_output s port buf).data)
      :: outputs (router_model_get_output s port buf).state rest
  | .write_ctrl data :: rest => outputs (router_model_write_ctrl s data) rest
  | .port_a data addr :: rest => outputs (router_model_port_a s data addr) rest
  | .port_b data addr :: rest => outputs (router_model_port_b s data addr) rest

theorem popUntilEmpty_eq_nil (q : List uint8_t) : popUntilEmpty q = [] := by
  induction q with
  | nil => rfl
  | cons _ rest ih => simpa [popUntilEmpty] using ih

theorem clearFifos_four (fifos : Fin 4 → List uint8_t) :
    clearFifos fifos 4 = fun _ => [] := by
  funext i
  simp only [clearFifos, popUntilEmpty_eq_nil]
  fin_cases i <;> simp [Function.update]

theorem init_resets_eq (s : RouterState) :
    router_model_init s
      = { global_enable := true, priority_port_b := false, port_fifos := fun _ => [] } := by
  simp [router_model_init, clearFifos_four]

/-- C3: from every prior state `router_model_init` yields the state with
`global_enable = true`, `priority_port_b = false` and four empty queues; so the
result does not depend on the prior state and a second reset changes nothing. -/
theorem init_resets (s t : RouterState) :
    router_model_init s
        = { global_enable := true, priority_port_b := false, port_fifos := fun _ => [] }
      ∧ router_model_init s = router_model_init t
      ∧ router_model_init (router_model_init s) = router_model_init s := by
  refine ⟨init_resets_eq s, ?_, ?_⟩
  · rw [init_resets_eq s, init_resets_eq t]
  · rw [init_resets_eq (router_model_init s), init_resets_eq s]

theorem and_two_shiftRight_one (c : Nat) : (c &&& 2) >>> 1 = c / 2 % 2 := by
  have h := Nat.and_two_pow c 1
  rw [pow_one] at h
  rw [h, Nat.shiftRight_eq_div_pow, Nat.toNat_testBit, pow_one]
  omega

theorem write_ctrl_enable (s : RouterState) (c : uint32_t) :
    (router_model_write_ctrl s c).global_enable = decide (c.val % 2 = 1) := by
  simp only [router_model_write_ctrl, Nat.and_one_is_mod]
  rcases Nat.mod_two_eq_zero_or_one c.val with h | h <;> simp [h]

theorem write_ctrl_priority (s : RouterState) (c : uint32_t) :
    (router_model_write_ctrl s c).priority_port_b = decide (c.val / 2 % 2 = 1) := by
  simp only [router_model_write_ctrl, and_two_shiftRight_one]
  rcases Nat.mod_two_eq_zero_or_one (c.val / 2) with h | h <;> simp [h]

theorem write_ctrl_fifos (s : RouterState) (c : uint32_t) :
    (router_model_write_ctrl s c).port_fifos = s.port_fifos := rfl

theorem port_a_disabled (s : RouterState) (data addr : uint8_t)
    (h : s.global_enable = false) : router_model_port_a s data addr = s := by
  simp [router_model_port_a, h]

theorem port_b_disabled (s : RouterState) (data addr : uint8_t)
    (h : s.global_enable = false) : router_model_port_b s data addr = s := by
  simp [router_model_port_b, h]

theorem port_a_out_of_range (s : RouterState) (data addr : uint8_t)
    (h : 4 ≤ addr.val) : router_model_port_a s data addr = s := by
  simp [router_model_port_a, Nat.not_lt.mpr h]

theorem port_b_out_of_range (s : RouterState) (data addr : uint8_t)
    (h : 4 ≤ addr.val) : router_model_port_b s data addr = s := by
  simp [router_model_port_b, Nat.not_lt.mpr h]

theorem port_a_enabled (s : RouterState) (data addr : uint8_t)
    (hen : s.global_enable = true) (h : addr.val < 4) :
    router_model_port_a s data addr =
      { s with
        port_fifos := Function.update s.port_fifos ⟨addr.val, h⟩
          (s.port_fifos ⟨addr.val, h⟩ ++ [data]) } := by
  simp [router_model_port_a, hen, h]

theorem port_b_eq_port_a (s : RouterState) (data addr : uint8_t) :
    router_model_port_b s data addr = router_model_port_a s data addr := rfl

theorem get_output_cons (s : RouterState) (port buf front : uint8_t) (rest : List uint8_t)
    (h : port.val < 4) (hq : s.port_fifos ⟨port.val, h⟩ = front :: rest) :
    router_model_get_output s port buf =
      { ret := 1
        data := front
        state := { s with port_fifos := Function.update s.port_fifos ⟨port.val, h⟩ rest } } := by
  simp only [router_model_get_output, h, dite_true]
  split
  · rename_i f r heq
    rw [hq] at heq
    cases heq
    rfl
  · rename_i heq
    rw [hq] at heq
    cases heq

theorem get_output_nil (s : RouterState) (port buf : uint8_t)
    (h : port.val < 4) (hq : s.port_fifos ⟨port.val, h⟩ = []) :
    router_model_get_output s port buf = { ret := 0, data := buf, state := s } := by
  simp only [router_model_get_output, h, dite_true]
  split
  · rename_i f r heq
    rw [hq] at heq
    cases heq
  · rfl

theorem get_output_out_of_range (s : RouterState) (port buf : uint8_t)
    (h : 4 ≤ port.val) :
    router_model_get_output s port buf = { ret := 0, data := buf, state := s } := by
  simp [router_model_get_output, Nat.not_lt.mpr h]

/-- C4: with `global_enable = true` and `addr < 4`, `router_model_port_a(data, addr)`
and likewise `router_model_port_b(data, addr)` make queue `addr` its old contents
followed by `data`, and leave the other three queues and both flags as they were. -/
theorem port_accepts (s : RouterState) (data addr : uint8_t)
    (hen : s.global_enable = true) (h : addr.val < 4) :
    ((router_model_port_a s data addr).port_fifos ⟨addr.val, h⟩
        = s.port_fifos ⟨addr.val, h⟩ ++ [data]
      ∧ (∀ j : Fin 4, j ≠ ⟨addr.val, h⟩ →
          (router_model_port_a s data addr).port_fifos j = s.port_fifos j)
      ∧ (router_model_port_a s data addr).global_enable = s.global_enable
      ∧ (router_model_port_a s data addr).priority_port_b = s.priority_port_b)
    ∧ ((router_model_port_b s data addr).port_fifos ⟨addr.val, h⟩
        = s.port_fifos ⟨addr.val, h⟩ ++ [data]
      ∧ (∀ j : Fin 4, j ≠ ⟨addr.val, h⟩ →
          (router_model_port_b s data addr).port_fifos j = s.port_fifos j)
      ∧ (router_model_port_b s data addr).global_enable = s.global_enable
      ∧ (router_model_port_b s data addr).priority_port_b = s.priority_port_b) := by
  rw [port_b_eq_port_a, port_a_enabled s data addr hen h]
  have key : ∀ j : Fin 4, j ≠ ⟨addr.val, h⟩ →
      Function.update s.port_fifos ⟨addr.val, h⟩ (s.port_fifos ⟨addr.val, h⟩ ++ [data]) j
        = s.port_fifos j := fun j hj => Function.update_noteq hj _ _
  exact ⟨⟨Function.update_same _ _ _, key, rfl, rfl⟩, ⟨Function.update_same _ _ _, key, rfl, rfl⟩⟩

/-- C4 at `readyState`, byte `0x55`, destination 2. -/
theorem port_accepts_witness :
    readyState.global_enable = true ∧
    (2 : uint8_t).val < 4 ∧
    (router_model_port_a readyState 0x55 2).port_fifos 2 = [0x10, 0x20, 0x30, 0x55] ∧
    (router_model_port_b readyState 0x55 2).port_fifos 2 = [0x10, 0x20, 0x30, 0x55] ∧
    (router_model_port_a readyState 0x55 2).port_fifos 1 = [5, 6] :=
  have h := port_accepts readyState 0x55 2 rfl (by decide)
  ⟨rfl, by decide, h.1.1, h.2.1, h.1.2.1 1 (by decide)⟩

/-- C5: when `p < 4` and queue `p` holds the oldest byte `b` followed by `r`,
`router_model_get_output(p)` returns 1 with `*data = b`, queue `p` becomes `r` (one
byte shorter), and the other three queues and both flags are unchanged. -/
theorem get_output_pops (s : RouterState) (p buf b : uint8_t) (r : List uint8_t)
    (h : p.val < 4) (hq : s.port_fifos ⟨p.val, h⟩ = b :: r) :
    (router_model_get_output s p buf).ret = 1
    ∧ (router_model_get_output s p buf).data = b
    ∧ (router_model_get_output s p buf).state.port_fifos ⟨p.val, h⟩ = r
    ∧ ((router_model_get_output s p buf).state.port_fifos ⟨p.val, h⟩).length + 1
        = (s.port_fifos ⟨p.val, h⟩).length
    ∧ (∀ j : Fin 4, j ≠ ⟨p.val, h⟩ →
        (router_model_get_output s p buf).state.port_fifos j = s.port_fifos j)
    ∧ (router_model_get_output s p buf).state.global_enable = s.global_enable
    ∧ (router_model_get_output s p buf).state.priority_port_b = s.priority_port_b := by
  rw [get_output_cons s p buf b r h hq]
  refine ⟨rfl, rfl, Function.update_same _ _ _, ?_, fun j hj => Function.update_noteq hj _ _,
    rfl, rfl⟩
  simp [hq]

/-- C5 at `busyState`, port 0, whose queue holds 1, 2, 3. -/
theorem get_output_pops_witness :
    (0 : uint8_t).val < 4 ∧
    busyState.port_fifos 0 = [1, 2, 3] ∧
    (router_model_get_output busyState 0 0xee).ret = 1 ∧
    (router_model_get_output busyState 0 0xee).data = 1 ∧
    (router_model_get_output busyState 0 0xee).state.port_fifos 0 = [2, 3] :=
  have h := get_output_pops busyState 0 0xee 1 [2, 3] (by decide) rfl
  ⟨by decide, rfl, h.1, h.2.1, h.2.2.1⟩

example : router_model_get_output busyState 0 0xee =
    { ret := 1
      data := 1
      state := { busyState with
        port_fifos := fun i => if i = 0 then [2, 3] else busyState.port_fifos i } } := by
  decide

theorem write_ctrl_eq (s : RouterState) (c : uint32_t) :
    router_model_write_ctrl s c =
      { global_enable := decide (c.val % 2 = 1)
        priority_port_b := decide (c.val / 2 % 2 = 1)
        port_fifos := s.port_fifos } := by
  rw [← write_ctrl_enable s c, ← write_ctrl_priority s c]
  rfl

theorem and_three_val (c : uint32_t) : (c &&& 3 : uint32_t).val = c.val % 4 := by
  rw [Fin.and_val]
  exact Nat.and_pow_two_sub_one_eq_mod c.val 2

/-- C6: after `router_model_write_ctrl(c)` with bit 0 of `c` clear, a call of
`router_model_port_a(data, addr)` or of `router_model_port_b(data, addr)`, for any
data byte and any `addr`, returns the state exactly as `write_ctrl` left it. -/
theorem disabled_drops (s : RouterState) (c : uint32_t) (data addr : uint8_t)
    (hc : c.val.testBit 0 = false) :
    router_model_port_a (router_model_write_ctrl s c) data addr = router_model_write_ctrl s c
    ∧ router_model_port_b (router_model_write_ctrl s c) data addr
        = router_model_write_ctrl s c := by
  have hen : (router_model_write_ctrl s c).global_enable = false := by
    rw [write_ctrl_enable]
    rw [Nat.testBit_zero] at hc
    exact hc
  exact ⟨port_a_disabled _ data addr hen, port_b_disabled _ data addr hen⟩

/-- C6 at `readyState` with control word 0 and a submission of `0x99` to port 2. -/
theorem disabled_drops_witness :
    (0 : uint32_t).val.testBit 0 = false ∧
    router_model_port_a (router_model_write_ctrl readyState 0) 0x99 2
      = router_model_write_ctrl readyState 0 ∧
    router_model_port_b (router_model_write_ctrl readyState 0) 0x99 2
      = router_model_write_ctrl readyState 0 :=
  have h := disabled_drops readyState 0 0x99 2 (by decide)
  ⟨by decide, h.1, h.2⟩

example : (router_model_port_a (router_model_write_ctrl readyState 0xfffffffe) 0x99 2).port_fifos 2
    = [0x10, 0x20, 0x30] := by decide

/-- C7: for `4 <= addr`, whether the router is enabled or not,
`router_model_port_a(data, addr)` and `router_model_port_b(data, addr)` return the
state unchanged, so `router_model_get_output` on any port gives afterwards what it
would have given without the submission. -/
theorem out_of_range_dropped (s : RouterState) (data addr : uint8_t) (h : 4 ≤ addr.val) :
    router_model_port_a s data addr = s
    ∧ router_model_port_b s data addr = s
    ∧ (∀ port buf : uint8_t,
        router_model_get_output (router_model_port_a s data addr) port buf
          = router_model_get_output s port buf
        ∧ router_model_get_output (router_model_port_b s data addr) port buf
          = router_model_get_output s port buf) := by
  have ha := port_a_out_of_range s data addr h
  have hb := port_b_out_of_range s data addr h
  refine ⟨ha, hb, fun port buf => ?_⟩
  rw [ha, hb]
  exact ⟨rfl, rfl⟩

/-- C7 at the spec's `port_a(0xAB, 5)`, on the enabled `readyState`. -/
theorem out_of_range_dropped_witness :
    4 ≤ (5 : uint8_t).val ∧
    readyState.global_enable = true ∧
    router_model_port_a readyState 0xAB 5 = readyState ∧
    router_model_get_output (router_model_port_a readyState 0xAB 5) 2 0
      = router_model_get_output readyState 2 0 :=
  have h := out_of_range_dropped readyState 0xAB 5 (by decide)
  ⟨by decide, rfl, h.1, (h.2.2 2 0).1⟩

example : router_model_port_b busyState 0xAB 255 = busyState := by decide

/-- C8: `router_model_get_output(port)` returns 0 exactly when `port >= 4` or queue
`port` is empty, and returns 1 in every other case. -/
theorem get_output_absent_iff (s : RouterState) (port buf : uint8_t) :
    ((router_model_get_output s port buf).ret = 0 ↔
        (4 ≤ port.val ∨ ∃ h : port.val < 4, s.port_fifos ⟨port.val, h⟩ = []))
    ∧ ((router_model_get_output s port buf).ret = 1 ↔
        ¬ (4 ≤ port.val ∨ ∃ h : port.val < 4, s.port_fifos ⟨port.val, h⟩ = [])) := by
  by_cases h : port.val < 4
  · cases hq : s.port_fifos ⟨port.val, h⟩ with
    | nil =>
      rw [get_output_nil s port buf h hq]
      simp [h, hq]
    | cons front rest =>
      rw [get_output_cons s port buf front rest h hq]
      simp [h, hq]
  · rw [get_output_out_of_range s port buf (Nat.le_of_not_lt h)]
    simp [Nat.le_of_not_lt h]

example : (router_model_get_output busyState 1 7).ret = 0 := by decide
example : (router_model_get_output busyState 2 7).ret = 1 := by decide
example : (router_model_get_output busyState 4 7).ret = 0 := by decide

/-- C9: `router_model_write_ctrl(c)` makes `global_enable` true exactly when bit 0 of
`c` is 1 and `priority_port_b` true exactly when bit 1 of `c` is 1, whatever the
state was before. -/
theorem write_ctrl_decodes (s : RouterState) (c : uint32_t) :
    ((router_model_write_ctrl s c).global_enable = true ↔ c.val.testBit 0 = true)
    ∧ ((router_model_write_ctrl s c).priority_port_b = true ↔ c.val.testBit 1 = true) := by
  rw [write_ctrl_enable, write_ctrl_priority, Nat.testBit_zero,
    Nat.testBit_to_div_mod, pow_one]
  exact ⟨Iff.rfl, Iff.rfl⟩

example : (router_model_write_ctrl busyState 0x1).global_enable = true
    ∧ (router_model_write_ctrl busyState 0x1).priority_port_b = false := by decide
example : (router_model_write_ctrl readyState 0xfffffffe).global_enable = false
    ∧ (router_model_write_ctrl readyState 0xfffffffe).priority_port_b = true := by decide

/-- C10: `router_model_write_ctrl(c)` gives the same state as
`router_model_write_ctrl(c & 0x3)`, and two control words that agree on bit 0 and on
bit 1 give the same state. -/
theorem write_ctrl_reserved_ignored (s : RouterState) (c : uint32_t) :
    router_model_write_ctrl s c = router_model_write_ctrl s (c &&& 3)
    ∧ (∀ c2 : uint32_t, c.val.testBit 0 = c2.val.testBit 0 →
        c.val.testBit 1 = c2.val.testBit 1 →
        router_model_write_ctrl s c = router_model_write_ctrl s c2) := by
  constructor
  · rw [write_ctrl_eq s c, write_ctrl_eq s (c &&& 3), and_three_val]
    have h0 : c.val % 4 % 2 = c.val % 2 := by omega
    have h1 : c.val % 4 / 2 % 2 = c.val / 2 % 2 := by omega
    rw [h0, h1]
  · intro c2 h0 h1
    rw [write_ctrl_eq s c, write_ctrl_eq s c2]
    rw [Nat.testBit_zero, Nat.testBit_zero] at h0
    rw [Nat.testBit_to_div_mod, Nat.testBit_to_div_mod, pow_one] at h1
    rw [h0, h1]

/-- C10 at `busyState` with the control words `0xdeadbeef` and `0x3`. -/
theorem write_ctrl_reserved_ignored_witness :
    (0xdeadbeef : uint32_t).val.testBit 0 = (3 : uint32_t).val.testBit 0 ∧
    (0xdeadbeef : uint32_t).val.testBit 1 = (3 : uint32_t).val.testBit 1 ∧
    router_model_write_ctrl busyState 0xdeadbeef = router_model_write_ctrl busyState 3 :=
  ⟨by decide, by decide,
    (write_ctrl_reserved_ignored busyState 0xdeadbeef).2 3 (by decide) (by decide)⟩

example : router_model_write_ctrl busyState 0xdeadbeef
    = { busyState with global_enable := true, priority_port_b := true } := by decide
example : router_model_write_ctrl readyState 0xfffffffc = router_model_write_ctrl readyState 0
    ∧ (router_model_write_ctrl readyState 0xfffffffc).global_enable = false := by decide

theorem submit_enabled (s : RouterState) (via : InputPort) (data addr : uint8_t)
    (hen : s.global_enable = true) (h : addr.val < 4) :
    submit s via data addr =
      { s with
        port_fifos := Function.update s.port_fifos ⟨addr.val, h⟩
          (s.port_fifos ⟨addr.val, h⟩ ++ [data]) } := by
  cases via
  · exact port_a_enabled s data addr hen h
  · exact (port_b_eq_port_a s data addr).trans (port_a_enabled s data addr hen h)

theorem submitAll_enabled (addr : uint8_t) (h : addr.val < 4)
    (subs : List (InputPort × uint8_t)) :
    ∀ s : RouterState, s.global_enable = true →
      (submitAll s addr subs).global_enable = true
      ∧ (submitAll s addr subs).port_fifos ⟨addr.val, h⟩
          = s.port_fifos ⟨addr.val, h⟩ ++ subs.map Prod.snd := by
  induction subs with
  | nil => intro s hen; simp [submitAll, hen]
  | cons x rest ih =>
    intro s hen
    obtain ⟨via, data⟩ := x
    have hs := submit_enabled s via data addr hen h
    have hen2 : (submit s via data addr).global_enable = true := by rw [hs]; exact hen
    have hq : (submit s via data addr).port_fifos ⟨addr.val, h⟩
        = s.port_fifos ⟨addr.val, h⟩ ++ [data] := by
      rw [hs]
      exact Function.update_same _ _ _
    obtain ⟨h1, h2⟩ := ih (submit s via data addr) hen2
    refine ⟨h1, ?_⟩
    show (submitAll (submit s via data addr) addr rest).port_fifos ⟨addr.val, h⟩ = _
    rw [h2, hq]
    simp

theorem drainN_queue (port : uint8_t) (h : port.val < 4) (q : List uint8_t) :
    ∀ (s : RouterState) (buf : uint8_t), s.port_fifos ⟨port.val, h⟩ = q →
      (drainN s port buf q.length).1 = q.map (fun b => ((1 : Int), b))
      ∧ (drainN s port buf q.length).2.port_fifos ⟨port.val, h⟩ = [] := by
  induction q with
  | nil => intro s buf hq; simp [drainN, hq]
  | cons front rest ih =>
    intro s buf hq
    have hr := get_output_cons s port buf front rest h hq
    have hrest : (router_model_get_output s port buf).state.port_fifos ⟨port.val, h⟩
        = rest := by
      rw [hr]
      exact Function.update_same _ _ _
    obtain ⟨h1, h2⟩ := ih (router_model_get_output s port buf).state
      (router_model_get_output s port buf).data hrest
    constructor
    · show ((router_model_get_output s port buf).ret, (router_model_get_output s port buf).data)
        :: (drainN (router_model_get_output s port buf).state port
            (router_model_get_output s port buf).data rest.length).1 = _
      rw [h1, hr]
      rfl
    · exact h2

/-- C1 (FIFO law): with `global_enable = true` and `d < 4`, after the bytes of `subs`
are submitted to `d`, each through `router_model_port_a` or `router_model_port_b`,
queue `d` is its old contents followed by those bytes; as many successive
`router_model_get_output(d)` calls as it holds bytes return 1 each time and hand back
exactly those bytes in that order; and the call after them returns 0. -/
theorem fifo_law (s : RouterState) (d : uint8_t) (hd : d.val < 4)
    (hen : s.global_enable = true) (subs : List (InputPort × uint8_t)) (buf : uint8_t) :
    (submitAll s d subs).port_fifos ⟨d.val, hd⟩
        = s.port_fifos ⟨d.val, hd⟩ ++ subs.map Prod.snd
    ∧ (drainN (submitAll s d subs) d buf
          (s.port_fifos ⟨d.val, hd⟩ ++ subs.map Prod.snd).length).1
        = (s.port_fifos ⟨d.val, hd⟩ ++ subs.map Prod.snd).map (fun b => ((1 : Int), b))
    ∧ (∀ buf2 : uint8_t, (router_model_get_output
          (drainN (submitAll s d subs) d buf
            (s.port_fifos ⟨d.val, hd⟩ ++ subs.map Prod.snd).length).2 d buf2).ret = 0) := by
  obtain ⟨_, hq⟩ := submitAll_enabled d hd subs s hen
  obtain ⟨h1, h2⟩ := drainN_queue d hd _ (submitAll s d subs) buf hq
  refine ⟨hq, h1, fun buf2 => ?_⟩
  rw [get_output_nil _ d buf2 hd h2]

/-- C1 on the spec scenario: `init`, `write_ctrl(0x1)`, `port_a(0x10, 2)`,
`port_b(0x20, 2)`, then `get_output(2)` giving `(1, 0x10)`, `(1, 0x20)` and 0. -/
theorem fifo_law_witness :
    (2 : uint8_t).val < 4 ∧
    scenarioState.global_enable = true ∧
    (submitAll scenarioState 2 [(.a, 0x10), (.b, 0x20)]).port_fifos 2 = [0x10, 0x20] ∧
    (drainN (submitAll scenarioState 2 [(.a, 0x10), (.b, 0x20)]) 2 0 2).1
      = [(1, 0x10), (1, 0x20)] ∧
    (router_model_get_output
      (drainN (submitAll scenarioState 2 [(.a, 0x10), (.b, 0x20)]) 2 0 2).2 2 0x20).ret = 0 := by
  have hd : (2 : uint8_t).val < 4 := by decide
  have h := fifo_law scenarioState 2 hd (by decide) [(.a, 0x10), (.b, 0x20)] 0
  have hq : scenarioState.port_fifos ⟨(2 : uint8_t).val, hd⟩ = [] := rfl
  rw [hq] at h
  exact ⟨hd, by decide, h.1, h.2.1, h.2.2 0x20⟩

example : (drainN (router_model_port_b (router_model_port_a scenarioState 0x10 2) 0x20 2)
    2 0 3).1 = [(1, 0x10), (1, 0x20), (0, 0x20)] := by decide

example : (drainN (submitAll readyState 2 [(.b, 7), (.a, 8), (.a, 7)]) 2 0 7).1
    = [(1, 0x10), (1, 0x20), (1, 0x30), (1, 7), (1, 8), (1, 7), (0, 7)] := by decide

theorem step_preserves (i : Fin 4) (s : RouterState) (c : Call) :
    drainedBy i s c ++ (step s c).port_fifos i = s.port_fifos i ++ acceptedBy i s c := by
  cases c with
  | write_ctrl data => simp [drainedBy, acceptedBy, step, write_ctrl_fifos]
  | port_a data addr =>
    simp only [drainedBy, acceptedBy, step, List.nil_append]
    by_cases hen : s.global_enable = true
    · by_cases h : addr.val < 4
      · rw [port_a_enabled s data addr hen h]
        by_cases hi : addr.val = i.val
        · have : (⟨addr.val, h⟩ : Fin 4) = i := Fin.ext hi
          subst this
          simp [hen]
        · have : i ≠ (⟨addr.val, h⟩ : Fin 4) := fun e => hi (by rw [e])
          simp [hi, Function.update_noteq this]
      · have hi : addr.val ≠ i.val := fun e => h (e ▸ i.isLt)
        rw [port_a_out_of_range s data addr (Nat.le_of_not_lt h)]
        simp [hi]
    · have hen2 : s.global_enable = false := by simpa using hen
      rw [port_a_disabled s data addr hen2]
      simp [hen2]
  | port_b data addr =>
    simp only [drainedBy, acceptedBy, step, List.nil_append, port_b_eq_port_a]
    by_cases hen : s.global_enable = true
    · by_cases h : addr.val < 4
      · rw [port_a_enabled s data addr hen h]
        by_cases hi : addr.val = i.val
        · have : (⟨addr.val, h⟩ : Fin 4) = i := Fin.ext hi
          subst this
          simp [hen]
        · have : i ≠ (⟨addr.val, h⟩ : Fin 4) := fun e => hi (by rw [e])
          simp [hi, Function.update_noteq this]
      · have hi : addr.val ≠ i.val := fun e => h (e ▸ i.isLt)
        rw [port_a_out_of_range s data addr (Nat.le_of_not_lt h)]
        simp [hi]
    · have hen2 : s.global_enable = false := by simpa using hen
      rw [port_a_disabled s data addr hen2]
      simp [hen2]
  | get_output port buf =>
    simp only [drainedBy, acceptedBy, step, List.append_nil]
    by_cases h : port.val < 4
    · cases hq : s.port_fifos ⟨port.val, h⟩ with
      | nil =>
        rw [get_output_nil s port buf h hq]
        simp
      | cons front rest =>
        rw [get_output_cons s port buf front rest h hq]
        by_cases hi : port.val = i.val
        · have : (⟨port.val, h⟩ : Fin 4) = i := Fin.ext hi
          subst this
          simp [hq]
        · have : i ≠ (⟨port.val, h⟩ : Fin 4) := fun e => hi (by rw [e])
          simp [hi, Function.update_noteq this]
    · rw [get_output_out_of_range s port buf (Nat.le_of_not_lt h)]
      simp

theorem run_preserves (i : Fin 4) (calls : List Call) :
    ∀ s : RouterState,
      drained i s calls ++ (run s calls).port_fifos i = s.port_fifos i ++ accepted i s calls := by
  induction calls with
  | nil => intro s; simp [drained, accepted, run]
  | cons c rest ih =>
    intro s
    show (drainedBy i s c ++ drained i (step s c) rest) ++ (run (step s c) rest).port_fifos i
      = s.port_fifos i ++ (acceptedBy i s c ++ accepted i (step s c) rest)
    rw [List.append_assoc, ih (step s c), ← List.append_assoc, step_preserves i s c,
      List.append_assoc]

/-- C2: for every sequence of `write_ctrl`, `port_a`, `port_b` and `get_output` calls
made after `router_model_init` and for every port `i < 4`, the bytes returned by the
successful `get_output(i)` calls followed by the bytes left in queue `i` at the end are
the data bytes of the accepted submissions to `i`, in submission order. -/
theorem no_reorder_dup_loss (s0 : RouterState) (calls : List Call) (i : Fin 4) :
    drained i (router_model_init s0) calls ++ (run (router_model_init s0) calls).port_fifos i
      = accepted i (router_model_init s0) calls := by
  rw [run_preserves i calls (router_model_init s0), (init_resets_eq s0)]
  rfl

example :
    drained 0 (router_model_init busyState)
        [.port_a 1 0, .write_ctrl 0, .port_b 2 0, .get_output 0 0, .write_ctrl 3, .port_b 3 0,
          .get_output 0 0, .get_output 1 0, .port_a 4 0, .port_a 5 9] = [1, 3]
    ∧ (run (router_model_init busyState)
        [.port_a 1 0, .write_ctrl 0, .port_b 2 0, .get_output 0 0, .write_ctrl 3, .port_b 3 0,
          .get_output 0 0, .get_output 1 0, .port_a 4 0, .port_a 5 9]).port_fifos 0 = [4]
    ∧ accepted 0 (router_model_init busyState)
        [.port_a 1 0, .write_ctrl 0, .port_b 2 0, .get_output 0 0, .write_ctrl 3, .port_b 3 0,
          .get_output 0 0, .get_output 1 0, .port_a 4 0, .port_a 5 9] = [1, 3, 4] := by
  decide

example : router_model_init busyState
    = { global_enable := true, priority_port_b := false, port_fifos := fun _ => [] } := by
  decide

theorem port_a_flags (s : RouterState) (data addr : uint8_t) :
    (router_model_port_a s data addr).global_enable = s.global_enable
    ∧ (router_model_port_a s data addr).priority_port_b = s.priority_port_b := by
  simp only [router_model_port_a]
  split_ifs <;> exact ⟨rfl, rfl⟩

theorem port_a_fifos (s : RouterState) (data addr : uint8_t) (i : Fin 4) :
    (router_model_port_a s data addr).port_fifos i
      = s.port_fifos i ++ (if addr.val = i.val ∧ s.global_enable = true then [data] else []) := by
  have h := step_preserves i s (.port_a data addr)
  simpa [drainedBy, acceptedBy, step] using h

theorem get_output_flags (s : RouterState) (port buf : uint8_t) :
    (router_model_get_output s port buf).state.global_enable = s.global_enable
    ∧ (router_model_get_output s port buf).state.priority_port_b = s.priority_port_b := by
  by_cases h : port.val < 4
  · cases hq : s.port_fifos ⟨port.val, h⟩ with
    | nil =>
      rw [get_output_nil s port buf h hq]
      exact ⟨rfl, rfl⟩
    | cons front rest =>
      rw [get_output_cons s port buf front rest h hq]
      exact ⟨rfl, rfl⟩
  · rw [get_output_out_of_range s port buf (Nat.le_of_not_lt h)]
    exact ⟨rfl, rfl⟩

/-- C11: for every state, data byte and `addr`, `router_model_port_a(data, addr)` and
`router_model_port_b(data, addr)` leave the same state. -/
theorem ports_interchangeable (s : RouterState) (data addr : uint8_t) :
    router_model_port_a s data addr = router_model_port_b s data addr := by
  simp only [router_model_port_a, router_model_port_b]

example : router_model_port_a readyState 0x33 1 = router_model_port_b readyState 0x33 1
    ∧ (router_model_port_b readyState 0x33 1).port_fifos 1 = [5, 6, 0x33] := by decide

/-- C12 as stated fails: on a state with `global_enable = false` and
`priority_port_b = true`, `router_model_init` changes both flags. -/
theorem init_changes_flags :
    (router_model_init busyState).global_enable ≠ busyState.global_enable
    ∧ (router_model_init busyState).priority_port_b ≠ busyState.priority_port_b := by
  decide

/-- C12 amended: `router_model_port_a`, `router_model_port_b` and
`router_model_get_output`, with any arguments, leave `global_enable` and
`priority_port_b` as they were; `router_model_init` sets them to true and false, so it
leaves them as they were exactly when they already had those values. -/
theorem flags_kept_except_by_init (s : RouterState) (data addr port buf : uint8_t) :
    ((router_model_port_a s data addr).global_enable = s.global_enable
      ∧ (router_model_port_a s data addr).priority_port_b = s.priority_port_b)
    ∧ ((router_model_port_b s data addr).global_enable = s.global_enable
      ∧ (router_model_port_b s data addr).priority_port_b = s.priority_port_b)
    ∧ ((router_model_get_output s port buf).state.global_enable = s.global_enable
      ∧ (router_model_get_output s port buf).state.priority_port_b = s.priority_port_b)
    ∧ ((router_model_init s).global_enable = true
      ∧ (router_model_init s).priority_port_b = false)
    ∧ (((router_model_init s).global_enable = s.global_enable
        ∧ (router_model_init s).priority_port_b = s.priority_port_b)
      ↔ (s.global_enable = true ∧ s.priority_port_b = false)) := by
  refine ⟨port_a_flags s data addr, ?_, get_output_flags s port buf, ⟨rfl, rfl⟩, ?_⟩
  · rw [port_b_eq_port_a]
    exact port_a_flags s data addr
  · show (true = s.global_enable ∧ false = s.priority_port_b) ↔ _
    constructor
    · rintro ⟨h1, h2⟩
      exact ⟨h1.symm, h2.symm⟩
    · rintro ⟨h1, h2⟩
      exact ⟨h1.symm, h2.symm⟩

/-- C13 as stated fails: `router_model_init` on a state whose queue 0 holds 1, 2, 3
leaves queue 0 shorter and without the byte 1. -/
theorem init_shortens_queue :
    ((router_model_init busyState).port_fifos 0).length < (busyState.port_fifos 0).length
    ∧ (1 : uint8_t) ∈ busyState.port_fifos 0
    ∧ (1 : uint8_t) ∉ (router_model_init busyState).port_fifos 0 := by
  decide

/-- C13 amended: after `router_model_write_ctrl`, `router_model_port_a` or
`router_model_port_b`, with any arguments, every queue starts with its old contents, so
it is no shorter than before and every byte it held is still in it;
`router_model_init` empties every queue. -/
theorem occupancy_kept_except_by_init (s : RouterState) (c : uint32_t) (data addr : uint8_t)
    (i : Fin 4) :
    (s.port_fifos i <+: (router_model_write_ctrl s c).port_fifos i
      ∧ (s.port_fifos i).length ≤ ((router_model_write_ctrl s c).port_fifos i).length
      ∧ ∀ b ∈ s.port_fifos i, b ∈ (router_model_write_ctrl s c).port_fifos i)
    ∧ (s.port_fifos i <+: (router_model_port_a s data addr).port_fifos i
      ∧ (s.port_fifos i).length ≤ ((router_model_port_a s data addr).port_fifos i).length
      ∧ ∀ b ∈ s.port_fifos i, b ∈ (router_model_port_a s data addr).port_fifos i)
    ∧ (s.port_fifos i <+: (router_model_port_b s data addr).port_fifos i
      ∧ (s.port_fifos i).length ≤ ((router_model_port_b s data addr).port_fifos i).length
      ∧ ∀ b ∈ s.port_fifos i, b ∈ (router_model_port_b s data addr).port_fifos i)
    ∧ (router_model_init s).port_fifos i = [] := by
  have key : ∀ old new : List uint8_t, old <+: new →
      old <+: new ∧ old.length ≤ new.length ∧ ∀ b ∈ old, b ∈ new :=
    fun old new h => ⟨h, h.length_le, fun b hb => h.subset hb⟩
  have ha : s.port_fifos i <+: (router_model_port_a s data addr).port_fifos i := by
    rw [port_a_fifos]
    exact List.prefix_append _ _
  refine ⟨key _ _ ?_, key _ _ ha, key _ _ ?_, ?_⟩
  · rw [write_ctrl_fifos]
  · rw [port_b_eq_port_a]
    exact ha
  · rw [init_resets_eq]

example : (router_model_port_a readyState 0x33 1).port_fifos 1 = [5, 6, 0x33]
    ∧ (router_model_write_ctrl readyState 0).port_fifos 1 = [5, 6]
    ∧ (router_model_init readyState).port_fifos 1 = [] := by decide

theorem get_output_congr (s t : RouterState) (port buf : uint8_t)
    (hq : s.port_fifos = t.port_fifos) :
    (router_model_get_output s port buf).ret = (router_model_get_output t port buf).ret
    ∧ (router_model_get_output s port buf).data = (router_model_get_output t port buf).data
    ∧ (router_model_get_output s port buf).state.port_fifos
        = (router_model_get_output t port buf).state.port_fifos := by
  by_cases h : port.val < 4
  · cases hs : s.port_fifos ⟨port.val, h⟩ with
    | nil =>
      have ht : t.port_fifos ⟨port.val, h⟩ = [] := by rw [← hq]; exact hs
      rw [get_output_nil s port buf h hs, get_output_nil t port buf h ht]
      exact ⟨rfl, rfl, hq⟩
    | cons front rest =>
      have ht : t.port_fifos ⟨port.val, h⟩ = front :: rest := by rw [← hq]; exact hs
      rw [get_output_cons s port buf front rest h hs, get_output_cons t port buf front rest h ht]
      refine ⟨rfl, rfl, ?_⟩
      show Function.update s.port_fifos _ _ = Function.update t.port_fifos _ _
      rw [hq]
  · rw [get_output_out_of_range s port buf (Nat.le_of_not_lt h),
      get_output_out_of_range t port buf (Nat.le_of_not_lt h)]
    exact ⟨rfl, rfl, hq⟩

theorem port_a_congr (s t : RouterState) (data addr : uint8_t)
    (hen : s.global_enable = t.global_enable) (hq : s.port_fifos = t.port_fifos) :
    (router_model_port_a s data addr).global_enable
        = (router_model_port_a t data addr).global_enable
    ∧ (router_model_port_a s data addr).port_fifos
        = (router_model_port_a t data addr).port_fifos := by
  constructor
  · rw [(port_a_flags s data addr).1, (port_a_flags t data addr).1, hen]
  · funext i
    rw [port_a_fifos, port_a_fifos, hen, hq]

theorem step_congr (s t : RouterState) (c : Call)
    (hen : s.global_enable = t.global_enable) (hq : s.port_fifos = t.port_fifos) :
    (step s c).global_enable = (step t c).global_enable
    ∧ (step s c).port_fifos = (step t c).port_fifos := by
  cases c with
  | write_ctrl data =>
    exact ⟨by simp only [step, write_ctrl_enable], by simp only [step, write_ctrl_fifos, hq]⟩
  | port_a data addr => exact port_a_congr s t data addr hen hq
  | port_b data addr =>
    simp only [step, port_b_eq_port_a]
    exact port_a_congr s t data addr hen hq
  | get_output port buf =>
    simp only [step]
    rw [(get_output_flags s port buf).1, (get_output_flags t port buf).1]
    exact ⟨hen, (get_output_congr s t port buf hq).2.2⟩

theorem outputs_cons (s : RouterState) (c : Call) (rest : List Call) :
    outputs s (c :: rest)
      = (match c with
          | .get_output port buf =>
            [((router_model_get_output s port buf).ret, (router_model_get_output s port buf).data)]
          | _ => [])
        ++ outputs (step s c) rest := by
  cases c <;> rfl

theorem run_congr (calls : List Call) :
    ∀ s t : RouterState, s.global_enable = t.global_enable → s.port_fifos = t.port_fifos →
      outputs s calls = outputs t calls
      ∧ (∀ i : Fin 4, drained i s calls = drained i t calls)
      ∧ (run s calls).global_enable = (run t calls).global_enable
      ∧ (run s calls).port_fifos = (run t calls).port_fifos := by
  induction calls with
  | nil => intro s t hen hq; exact ⟨rfl, fun _ => rfl, hen, hq⟩
  | cons c rest ih =>
    intro s t hen hq
    obtain ⟨hen2, hq2⟩ := step_congr s t c hen hq
    obtain ⟨h1, h2, h3, h4⟩ := ih (step s c) (step t c) hen2 hq2
    refine ⟨?_, fun i => ?_, h3, h4⟩
    · rw [outputs_cons, outputs_cons, h1]
      cases c with
      | get_output port buf =>
        obtain ⟨e1, e2, _⟩ := get_output_congr s t port buf hq
        simp only [e1, e2]
      | _ => rfl
    · show drainedBy i s c ++ drained i (step s c) rest
        = drainedBy i t c ++ drained i (step t c) rest
      rw [h2 i]
      cases c with
      | get_output port buf =>
        obtain ⟨e1, e2, _⟩ := get_output_congr s t port buf hq
        simp only [drainedBy, e1, e2]
      | _ => rfl

/-- C14: when two states agree on `global_enable` and on the four queues, so differ at
most in `priority_port_b`, the same call of `router_model_port_a`,
`router_model_port_b` or `router_model_get_output` leaves states that again agree on
`global_enable` and the queues, and `get_output` returns the same `int` and byte; so
over any common sequence of calls the harness reads the same results and drains the same
bytes from every port in both runs. -/
theorem priority_never_routes (s t : RouterState)
    (hen : s.global_enable = t.global_enable) (hq : s.port_fifos = t.port_fifos)
    (data addr port buf : uint8_t) (calls : List Call) :
    ((router_model_port_a s data addr).global_enable
        = (router_model_port_a t data addr).global_enable
      ∧ (router_model_port_a s data addr).port_fifos
        = (router_model_port_a t data addr).port_fifos)
    ∧ ((router_model_port_b s data addr).global_enable
        = (router_model_port_b t data addr).global_enable
      ∧ (router_model_port_b s data addr).port_fifos
        = (router_model_port_b t data addr).port_fifos)
    ∧ ((router_model_get_output s port buf).ret = (router_model_get_output t port buf).ret
      ∧ (router_model_get_output s port buf).data = (router_model_get_output t port buf).data
      ∧ (router_model_get_output s port buf).state.global_enable
        = (router_model_get_output t port buf).state.global_enable
      ∧ (router_model_get_output s port buf).state.port_fifos
        = (router_model_get_output t port buf).state.port_fifos)
    ∧ outputs s calls = outputs t calls
    ∧ (∀ i : Fin 4, drained i s calls = drained i t calls) := by
  obtain ⟨g1, g2, g3⟩ := get_output_congr s t port buf hq
  obtain ⟨r1, r2, _, _⟩ := run_congr calls s t hen hq
  refine ⟨port_a_congr s t data addr hen hq, ?_, ⟨g1, g2, ?_, g3⟩, r1, r2⟩
  · rw [port_b_eq_port_a, port_b_eq_port_a]
    exact port_a_congr s t data addr hen hq
  · rw [(get_output_flags s port buf).1, (get_output_flags t port buf).1, hen]

/-- C14 at `readyState` and the same state with `priority_port_b` set, over a run of
two submissions to port 1 and four reads of it. -/
theorem priority_never_routes_witness :
    readyState.priority_port_b ≠ ({ readyState with priority_port_b := true }).priority_port_b
    ∧ readyState.global_enable = ({ readyState with priority_port_b := true }).global_enable
    ∧ readyState.port_fifos = ({ readyState with priority_port_b := true }).port_fifos
    ∧ outputs readyState [.port_b 7 1, .get_output 1 0, .port_a 8 1, .get_output 1 0,
          .get_output 1 0, .get_output 1 0]
        = outputs { readyState with priority_port_b := true } [.port_b 7 1, .get_output 1 0,
          .port_a 8 1, .get_output 1 0, .get_output 1 0, .get_output 1 0] :=
  ⟨by decide, rfl, rfl,
    (priority_never_routes readyState { readyState with priority_port_b := true } rfl rfl
      0 0 0 0 [.port_b 7 1, .get_output 1 0, .port_a 8 1, .get_output 1 0,
        .get_output 1 0, .get_output 1 0]).2.2.2.1⟩

example : outputs { readyState with priority_port_b := true } [.port_b 7 1, .get_output 1 0,
    .port_a 8 1, .get_output 1 0, .get_output 1 0, .get_output 1 0, .get_output 1 0]
    = [(1, 5), (1, 6), (1, 7), (1, 8), (0, 0)] := by decide

/-- C15: for every prior state and every port, `router_model_get_output(port)` called
directly after `router_model_init` returns 0. -/
theorem nothing_readable_after_init (s : RouterState) (port buf : uint8_t) :
    (router_model_get_output (router_model_init s) port buf).ret = 0 := by
  by_cases h : port.val < 4
  · rw [get_output_nil (router_model_init s) port buf h (by rw [init_resets_eq])]
  · rw [get_output_out_of_range (router_model_init s) port buf (Nat.le_of_not_lt h)]

example : (router_model_get_output (router_model_init busyState) 0 7).ret = 0
    ∧ (router_model_get_output (router_model_init busyState) 3 7).ret = 0
    ∧ (router_model_get_output (router_model_init busyState) 200 7).ret = 0 := by decide

theorem get_output_zero (s : RouterState) (port buf : uint8_t)
    (h : (router_model_get_output s port buf).ret = 0) :
    router_model_get_output s port buf = { ret := 0, data := buf, state := s } := by
  by_cases hp : port.val < 4
  · cases hq : s.port_fifos ⟨port.val, hp⟩ with
    | nil => exact get_output_nil s port buf hp hq
    | cons front rest =>
      rw [get_output_cons s port buf front rest hp hq] at h
      exact absurd h Int.one_ne_zero
  · exact get_output_out_of_range s port buf (Nat.le_of_not_lt hp)

theorem drainN_zero (s : RouterState) (port buf : uint8_t)
    (h : router_model_get_output s port buf = { ret := 0, data := buf, state := s }) (n : Nat) :
    drainN s port buf n = (List.replicate n ((0 : Int), buf), s) := by
  induction n with
  | zero => rfl
  | succ n ih =>
    show (((router_model_get_output s port buf).ret, (router_model_get_output s port buf).data)
        :: (drainN (router_model_get_output s port buf).state port
            (router_model_get_output s port buf).data n).1,
      (drainN (router_model_get_output s port buf).state port
            (router_model_get_output s port buf).data n).2) = _
    rw [h]
    show (((0 : Int), buf) :: (drainN s port buf n).1, (drainN s port buf n).2) = _
    rw [ih]
    rfl

/-- C16: when `router_model_get_output(port)` returns 0, the state (both flags and the
four queues) is as before and the byte at `*data` is not written; so however often the
call is repeated, every call returns 0 and leaves the buffer and the state alone. -/
theorem empty_drain_no_effect (s : RouterState) (port buf : uint8_t)
    (h : (router_model_get_output s port buf).ret = 0) :
    (router_model_get_output s port buf).state = s
    ∧ (router_model_get_output s port buf).data = buf
    ∧ (∀ n : Nat, drainN s port buf n = (List.replicate n ((0 : Int), buf), s)) := by
  have hz := get_output_zero s port buf h
  refine ⟨?_, ?_, drainN_zero s port buf hz⟩
  · rw [hz]
  · rw [hz]

/-- C16 at `busyState`, whose queue 1 is empty, with `0x5a` in the buffer. -/
theorem empty_drain_no_effect_witness :
    (router_model_get_output busyState 1 0x5a).ret = 0
    ∧ (router_model_get_output busyState 1 0x5a).state = busyState
    ∧ (router_model_get_output busyState 1 0x5a).data = 0x5a
    ∧ drainN busyState 1 0x5a 3 = ([(0, 0x5a), (0, 0x5a), (0, 0x5a)], busyState) :=
  have h := empty_drain_no_effect busyState 1 0x5a (by decide)
  ⟨by decide, h.1, h.2.1, h.2.2 3⟩

example : (drainN busyState 9 0x5a 2).1 = [(0, 0x5a), (0, 0x5a)] := by decide

theorem submit_flags (s : RouterState) (via : InputPort) (data addr : uint8_t) :
    (submit s via data addr).global_enable = s.global_enable
    ∧ (submit s via data addr).priority_port_b = s.priority_port_b := by
  cases via
  · exact port_a_flags s data addr
  · show (router_model_port_b s data addr).global_enable = _ ∧ _
    rw [port_b_eq_port_a]
    exact port_a_flags s data addr

theorem submit_fifos (s : RouterState) (via : InputPort) (data addr : uint8_t) (i : Fin 4) :
    (submit s via data addr).port_fifos i
      = s.port_fifos i ++ (if addr.val = i.val ∧ s.global_enable = true then [data] else []) := by
  cases via
  · exact port_a_fifos s data addr i
  · show (router_model_port_b s data addr).port_fifos i = _
    rw [port_b_eq_port_a]
    exact port_a_fifos s data addr i

theorem submit_out_of_range (s : RouterState) (via : InputPort) (data addr : uint8_t)
    (h : ¬ addr.val < 4) : submit s via data addr = s := by
  cases via
  · exact port_a_out_of_range s data addr (Nat.le_of_not_lt h)
  · exact port_b_out_of_range s data addr (Nat.le_of_not_lt h)

theorem submitBatch_fifos (i : Fin 4) (subs : List (InputPort × uint8_t × uint8_t)) :
    ∀ s : RouterState, s.global_enable = true →
      (submitBatch s subs).port_fifos i
        = s.port_fifos i
          ++ (subs.filter (fun x => decide (x.2.2.val = i.val))).map (fun x => x.2.1) := by
  induction subs with
  | nil => intro s _; simp [submitBatch]
  | cons x rest ih =>
    intro s hen
    obtain ⟨via, data, addr⟩ := x
    have hen2 : (submit s via data addr).global_enable = true := by
      rw [(submit_flags s via data addr).1, hen]
    show (submitBatch (submit s via data addr) rest).port_fifos i = _
    rw [ih (submit s via data addr) hen2, submit_fifos s via data addr i]
    by_cases hi : addr.val = i.val
    · simp [List.filter_cons, hi, hen]
    · simp [List.filter_cons, hi]

theorem submitBatch_in_range (subs : List (InputPort × uint8_t × uint8_t)) :
    ∀ s : RouterState,
      submitBatch s subs = submitBatch s (subs.filter (fun x => decide (x.2.2.val < 4))) := by
  induction subs with
  | nil => intro s; rfl
  | cons x rest ih =>
    intro s
    obtain ⟨via, data, addr⟩ := x
    by_cases h : addr.val < 4
    · rw [List.filter_cons_of_pos (by simpa using h)]
      exact ih (submit s via data addr)
    · rw [List.filter_cons_of_neg (by simpa using h)]
      show submitBatch (submit s via data addr) rest = _
      rw [submit_out_of_range s via data addr h]
      exact ih s

/-- C17: with `global_enable = true`, after a list of submissions with any `addr`, each
through `router_model_port_a` or `router_model_port_b`, every queue `i < 4` holds its
old contents followed by the data bytes of the submissions with `addr = i`, in their
original order; the submissions with `addr >= 4` can be left out without changing the
resulting state. -/
theorem batch_per_port (s : RouterState) (hen : s.global_enable = true)
    (subs : List (InputPort × uint8_t × uint8_t)) :
    (∀ i : Fin 4, (submitBatch s subs).port_fifos i
        = s.port_fifos i
          ++ (subs.filter (fun x => decide (x.2.2.val = i.val))).map (fun x => x.2.1))
    ∧ submitBatch s subs = submitBatch s (subs.filter (fun x => decide (x.2.2.val < 4))) :=
  ⟨fun i => submitBatch_fifos i subs s hen, submitBatch_in_range subs s⟩

/-- C17 at `readyState` with five submissions, to ports 1, 0, 7, 1 and 255. -/
theorem batch_per_port_witness :
    readyState.global_enable = true
    ∧ (submitBatch readyState
        [(.a, 0xa1, 1), (.b, 0xb0, 0), (.a, 0xee, 7), (.b, 0xb1, 1), (.b, 0xff, 255)]).port_fifos 1
      = [5, 6, 0xa1, 0xb1]
    ∧ submitBatch readyState
        [(.a, 0xa1, 1), (.b, 0xb0, 0), (.a, 0xee, 7), (.b, 0xb1, 1), (.b, 0xff, 255)]
      = submitBatch readyState [(.a, 0xa1, 1), (.b, 0xb0, 0), (.b, 0xb1, 1)] :=
  have h := batch_per_port readyState rfl
    [(.a, 0xa1, 1), (.b, 0xb0, 0), (.a, 0xee, 7), (.b, 0xb1, 1), (.b, 0xff, 255)]
  ⟨rfl, h.1 1, h.2⟩

example : submitBatch readyState
    [(.a, 0xa1, 1), (.b, 0xb0, 0), (.a, 0xee, 7), (.b, 0xb1, 1), (.b, 0xff, 255)]
    = { readyState with
        port_fifos := fun i => if i = 0 then [0x41, 0xb0] else if i = 1 then [5, 6, 0xa1, 0xb1]
          else readyState.port_fifos i } := by
  decide

theorem drainN_congr (port : uint8_t) (n : Nat) :
    ∀ (s t : RouterState) (buf : uint8_t), s.port_fifos = t.port_fifos →
      (drainN s port buf n).1 = (drainN t port buf n).1
      ∧ (drainN s port buf n).2.port_fifos = (drainN t port buf n).2.port_fifos := by
  induction n with
  | zero => intro s t buf hq; exact ⟨rfl, hq⟩
  | succ n ih =>
    intro s t buf hq
    obtain ⟨e1, e2, e3⟩ := get_output_congr s t port buf hq
    obtain ⟨h1, h2⟩ := ih (router_model_get_output s port buf).state
      (router_model_get_output t port buf).state (router_model_get_output s port buf).data e3
    constructor
    · show ((router_model_get_output s port buf).ret, (router_model_get_output s port buf).data)
          :: (drainN (router_model_get_output s port buf).state port
              (router_model_get_output s port buf).data n).1
        = ((router_model_get_output t port buf).ret, (router_model_get_output t port buf).data)
          :: (drainN (router_model_get_output t port buf).state port
              (router_model_get_output t port buf).data n).1
      rw [h1, e1, e2]
    · show (drainN (router_model_get_output s port buf).state port
              (router_model_get_output s port buf).data n).2.port_fifos
        = (drainN (router_model_get_output t port buf).state port
              (router_model_get_output t port buf).data n).2.port_fifos
      rw [h2, e2]

theorem drainN_flags (port : uint8_t) (n : Nat) :
    ∀ (s : RouterState) (buf : uint8_t),
      (drainN s port buf n).2.global_enable = s.global_enable
      ∧ (drainN s port buf n).2.priority_port_b = s.priority_port_b := by
  induction n with
  | zero => intro s buf; exact ⟨rfl, rfl⟩
  | succ n ih =>
    intro s buf
    obtain ⟨h1, h2⟩ := ih (router_model_get_output s port buf).state
      (router_model_get_output s port buf).data
    obtain ⟨f1, f2⟩ := get_output_flags s port buf
    exact ⟨h1.trans f1, h2.trans f2⟩

/-- C18: `router_model_write_ctrl(c)` leaves the four queues as they were, and a
`router_model_get_output(port)` after it returns the same `int` and byte and leaves
the same queues as one without it; so any number of successive reads give the same
results, the bytes queued on a port before the control write are drained in order, and
`global_enable` stays as the control write set it (false when bit 0 of `c` is clear). -/
theorem write_ctrl_keeps_queues (s : RouterState) (c : uint32_t) (port buf : uint8_t) :
    (router_model_write_ctrl s c).port_fifos = s.port_fifos
    ∧ (router_model_get_output (router_model_write_ctrl s c) port buf).ret
        = (router_model_get_output s port buf).ret
    ∧ (router_model_get_output (router_model_write_ctrl s c) port buf).data
        = (router_model_get_output s port buf).data
    ∧ (router_model_get_output (router_model_write_ctrl s c) port buf).state.port_fifos
        = (router_model_get_output s port buf).state.port_fifos
    ∧ (∀ n : Nat, (drainN (router_model_write_ctrl s c) port buf n).1
        = (drainN s port buf n).1)
    ∧ (∀ h : port.val < 4,
        (drainN (router_model_write_ctrl s c) port buf (s.port_fifos ⟨port.val, h⟩).length).1
          = (s.port_fifos ⟨port.val, h⟩).map (fun b => ((1 : Int), b)))
    ∧ (∀ n : Nat, (drainN (router_model_write_ctrl s c) port buf n).2.global_enable
        = c.val.testBit 0) := by
  have hq : (router_model_write_ctrl s c).port_fifos = s.port_fifos := write_ctrl_fifos s c
  obtain ⟨e1, e2, e3⟩ := get_output_congr (router_model_write_ctrl s c) s port buf hq
  refine ⟨hq, e1, e2, e3, fun n => (drainN_congr port n _ s buf hq).1, fun h => ?_, fun n => ?_⟩
  · rw [(drainN_congr port _ (router_model_write_ctrl s c) s buf hq).1]
    exact (drainN_queue port h _ s buf rfl).1
  · rw [(drainN_flags port n (router_model_write_ctrl s c) buf).1, write_ctrl_enable,
      Nat.testBit_zero]

/-- C18 at `readyState`: after `write_ctrl(0)` the router is disabled and the three
bytes queued on port 2 are still read back in order. -/
theorem write_ctrl_keeps_queues_witness :
    (2 : uint8_t).val < 4
    ∧ (router_model_write_ctrl readyState 0).global_enable = false
    ∧ (drainN (router_model_write_ctrl readyState 0) 2 0 3).1
        = [(1, 0x10), (1, 0x20), (1, 0x30)]
    ∧ (drainN (router_model_write_ctrl readyState 0) 2 0 3).2.global_enable = false := by
  have hd : (2 : uint8_t).val < 4 := by decide
  have h := write_ctrl_keeps_queues readyState 0 2 0
  exact ⟨hd, by decide, h.2.2.2.2.2.1 hd, h.2.2.2.2.2.2 3⟩

example : router_model_get_output (router_model_write_ctrl readyState 0xfffffff2) 1 0
    = { ret := 1
        data := 5
        state := { global_enable := false
                   priority_port_b := true
                   port_fifos := fun i => if i = 1 then [6] else readyState.port_fifos i } } := by
  decide

end RouterModel
